import Mathlib

/-
Verification development for the heapless-async concurrency core.

The Rust source is shallowly embedded: each stateful operation becomes a
pure Lean function that takes the relevant state and returns the result
together with the updated state and the observable effects of the step
(which scheduler tasks were woken through a peer waker slot, whether the
step invoked wake_by_ref on its own waker, whether the step registered
its waker into a slot).

The fixed-capacity ring buffer (heapless Queue / MpMcQueue) is an external
collaborator of the crate; it is modelled as a FIFO list with a capacity
bound, exactly the try-push / try-pop interface the crate consumes.
-/

set_option autoImplicit false

namespace HeaplessAsync

/-- A scheduler resume handle (core::task::Waker). `task` identifies the
logical task the handle resumes; `id` distinguishes different clones or
instances of handles for the same task, so that the will_wake optimisation
in WakerRegistration.register is observable in the model. -/
structure Waker where
  task : Nat
  id : Nat
deriving DecidableEq

/-- Waker::will_wake from core: two handles wake the same logical task. -/
def Waker.will_wake (w2 w : Waker) : Bool :=
  w2.task == w.task

/-- src/waker.rs WakerRegistration: a waker slot holding at most one
resume handle. -/
structure WakerRegistration where
  waker : Option Waker
deriving DecidableEq

namespace WakerRegistration

/-- WakerRegistration::new from src/waker.rs. -/
def new : WakerRegistration := ⟨none⟩

/-- Modelled from the spec: the mpmc module uses a WakerRegistration::EMPTY
constant absent from the src snapshot of waker.rs; per §3 a fresh slot
contains no handle. -/
def EMPTY : WakerRegistration := ⟨none⟩

/-- WakerRegistration::register from src/waker.rs: keep the stored handle
when it would wake the same task as the new one, otherwise store the new
handle, overwriting any previous one. -/
def register (r : WakerRegistration) (w : Waker) : WakerRegistration :=
  match r.waker with
  | some w2 => if w2.will_wake w then r else ⟨some w⟩
  | none => ⟨some w⟩

/-- WakerRegistration::wake from src/waker.rs: take the stored handle, if
any, and invoke it. The invocation is modelled by returning the list of
task ids woken during the call. -/
def wake (r : WakerRegistration) : WakerRegistration × List Nat :=
  match r.waker with
  | some w => (⟨none⟩, [w.task])
  | none => (⟨none⟩, [])

/-- Modelled from the spec: the mpmc module calls an is_empty accessor
absent from the src snapshot of waker.rs; per §3 a slot is empty exactly
when it holds no handle. -/
def is_empty (r : WakerRegistration) : Bool :=
  r.waker.isNone

end WakerRegistration

/-- src/lock.rs Lock: a value behind an atomic UNLOCKED/LOCKED flag.
`locked` is true when the flag currently reads LOCKED. -/
structure Lock (T : Type) where
  locked : Bool
  value : T
deriving DecidableEq

namespace Lock

/-- Lock::new from src/lock.rs. -/
def new {T : Type} (value : T) : Lock T := ⟨false, value⟩

/-- Lock::try_lock from src/lock.rs: compare_exchange UNLOCKED→LOCKED; on
success run `op` with exclusive access to the value and store UNLOCKED
back; on failure return None without touching the value. The Rust closure
FnOnce(&mut T) -> R is modelled as T → R × T. -/
def try_lock {T R : Type} (l : Lock T) (op : T → R × T) : Option R × Lock T :=
  if l.locked then
    (none, l)
  else
    let p := op l.value
    (some p.1, ⟨false, p.2⟩)

end Lock

/-- src/mutex.rs Mutex: same atomic flag discipline as Lock, but access is
through a guard whose drop releases the flag. Every use in the crate is
acquire / mutate / drop within one expression, so the guard lifetime is
modelled by the same combinator shape as Lock.try_lock. -/
structure Mutex (T : Type) where
  locked : Bool
  value : T
deriving DecidableEq

namespace Mutex

/-- Mutex::new from src/mutex.rs. -/
def new {T : Type} (value : T) : Mutex T := ⟨false, value⟩

/-- Mutex::try_lock from src/mutex.rs, fused with the guard use pattern
`if let Some(mut g) = m.try_lock() { body(&mut g) }`: on an unlocked flag
the body runs with exclusive access and the guard drop restores UNLOCKED;
on a locked flag nothing runs. -/
def try_lock {T R : Type} (m : Mutex T) (op : T → R × T) : Option R × Mutex T :=
  if m.locked then
    (none, m)
  else
    let p := op m.value
    (some p.1, ⟨false, p.2⟩)

end Mutex

/-- The external heapless ring buffer: strict FIFO with capacity `N`.
Front of the list is the oldest element. -/
structure HQueue (T : Type) (N : Nat) where
  buf : List T
deriving DecidableEq

namespace HQueue

/-- try-push: Result<(), T> is modelled as Option T, `none` meaning Ok and
`some v` meaning Err(v) (buffer full, item handed back). -/
def enqueue {T : Type} {N : Nat} (q : HQueue T N) (v : T) : Option T × HQueue T N :=
  if q.buf.length < N then
    (none, ⟨q.buf ++ [v]⟩)
  else
    (some v, q)

/-- try-pop: returns the oldest element when the buffer is non-empty. -/
def dequeue {T : Type} {N : Nat} (q : HQueue T N) : Option T × HQueue T N :=
  match q.buf with
  | [] => (none, q)
  | x :: rest => (some x, ⟨rest⟩)

end HQueue

/-- Poll from core::task. -/
inductive Poll (α : Type) where
  | Ready (v : α)
  | Pending
deriving DecidableEq

/-- The shared state of one SPSC channel (src/spsc): the ring buffer plus
the producer-side and consumer-side waker cells of src/spsc/producer.rs
and src/spsc/consumer.rs. -/
structure SpscState (T : Type) (N : Nat) where
  queue : HQueue T N
  producer_waker : Mutex WakerRegistration
  consumer_waker : Mutex WakerRegistration
deriving DecidableEq

/-- ProducerError from src/spsc/producer.rs. WouldBlock carries no item. -/
inductive ProducerError (T : Type) where
  | WouldBlock
  | Full (v : T)
deriving DecidableEq

/-- ConsumerError from src/spsc/consumer.rs. WouldBlock carries the
possibly-dequeued item. -/
inductive ConsumerError (T : Type) where
  | WouldBlock (v : Option T)
  | Empty
deriving DecidableEq

namespace Producer

/-- Producer::try_wake_consumer from src/spsc/producer.rs: try to lock the
consumer waker cell and wake the stored handle. Returns whether the lock
was acquired, the updated state, and the tasks woken. -/
def try_wake_consumer {T : Type} {N : Nat} (s : SpscState T N) :
    Bool × SpscState T N × List Nat :=
  match Mutex.try_lock s.consumer_waker (fun wk => (wk.wake.2, wk.wake.1)) with
  | (some woken, m) => (true, ⟨s.queue, s.producer_waker, m⟩, woken)
  | (none, m) => (false, ⟨s.queue, s.producer_waker, m⟩, [])

/-- Producer::try_register_waker from src/spsc/producer.rs: try to lock the
producer waker cell and register `w` in it. -/
def try_register_waker {T : Type} {N : Nat} (s : SpscState T N) (w : Waker) :
    Bool × SpscState T N :=
  match Mutex.try_lock s.producer_waker (fun wk => ((), wk.register w)) with
  | (some _, m) => (true, ⟨s.queue, m, s.consumer_waker⟩)
  | (none, m) => (false, ⟨s.queue, m, s.consumer_waker⟩)

/-- Producer::try_enqueue from src/spsc/producer.rs: one try-push, then one
best-effort consumer wake; a contended wake turns the whole result into
WouldBlock. Result<(), ProducerError<T>> is modelled as Option of the
error, `none` meaning Ok. -/
def try_enqueue {T : Type} {N : Nat} (s : SpscState T N) (v : T) :
    Option (ProducerError T) × SpscState T N × List Nat :=
  let p := s.queue.enqueue v
  let res : Option (ProducerError T) := p.1.map ProducerError.Full
  let s1 : SpscState T N := ⟨p.2, s.producer_waker, s.consumer_waker⟩
  match try_wake_consumer s1 with
  | (true, s2, woken) => (res, s2, woken)
  | (false, s2, woken) => (some ProducerError.WouldBlock, s2, woken)

end Producer

/-- ProducerFuture from src/spsc/producer.rs: holds the item still pending
transfer, or none once the item is in the buffer. -/
structure ProducerFuture (T : Type) where
  value_to_enqueue : Option T
deriving DecidableEq

/-- Producer::enqueue from src/spsc/producer.rs: the constructor performs
one immediate try-push and stores the failed item, if any, in the future. -/
def Producer.enqueue {T : Type} {N : Nat} (s : SpscState T N) (v : T) :
    ProducerFuture T × SpscState T N :=
  let p := s.queue.enqueue v
  (⟨p.1⟩, ⟨p.2, s.producer_waker, s.consumer_waker⟩)

/-- One resumption step outcome for an SPSC producer future: the poll
result, the updated future and channel state, the tasks woken through the
consumer waker cell, whether wake_by_ref was invoked on the step's own
waker, whether the step registered its waker into the producer slot, and
whether the consumer waker cell was successfully locked and fired. -/
structure ProducerPollOut (T : Type) (N : Nat) where
  result : Poll Unit
  fut : ProducerFuture T
  state : SpscState T N
  woken : List Nat
  self_woken : Bool
  registered : Bool
  fired_peer : Bool
deriving DecidableEq

/-- ProducerFuture::poll from src/spsc/producer.rs lines 132-170. -/
def ProducerFuture.poll {T : Type} {N : Nat} (fut : ProducerFuture T)
    (s : SpscState T N) (cx : Waker) : ProducerPollOut T N :=
  match fut.value_to_enqueue with
  | none =>
    match Producer.try_wake_consumer s with
    | (true, s2, woken) => ⟨Poll.Ready (), ⟨none⟩, s2, woken, false, false, true⟩
    | (false, s2, woken) => ⟨Poll.Pending, ⟨none⟩, s2, woken, true, false, false⟩
  | some v =>
    let p := s.queue.enqueue v
    let s1 : SpscState T N := ⟨p.2, s.producer_waker, s.consumer_waker⟩
    match p.1 with
    | none =>
      match Producer.try_wake_consumer s1 with
      | (true, s2, woken) => ⟨Poll.Ready (), ⟨none⟩, s2, woken, false, false, true⟩
      | (false, s2, woken) => ⟨Poll.Pending, ⟨none⟩, s2, woken, true, false, false⟩
    | some v2 =>
      match Producer.try_register_waker s1 cx with
      | (true, s2) => ⟨Poll.Pending, ⟨some v2⟩, s2, [], false, true, false⟩
      | (false, s2) => ⟨Poll.Pending, ⟨some v2⟩, s2, [], true, false, false⟩

namespace Consumer

/-- Consumer::try_wake_producer from src/spsc/consumer.rs. -/
def try_wake_producer {T : Type} {N : Nat} (s : SpscState T N) :
    Bool × SpscState T N × List Nat :=
  match Mutex.try_lock s.producer_waker (fun wk => (wk.wake.2, wk.wake.1)) with
  | (some woken, m) => (true, ⟨s.queue, m, s.consumer_waker⟩, woken)
  | (none, m) => (false, ⟨s.queue, m, s.consumer_waker⟩, [])

/-- Consumer::try_register_waker from src/spsc/consumer.rs. -/
def try_register_waker {T : Type} {N : Nat} (s : SpscState T N) (w : Waker) :
    Bool × SpscState T N :=
  match Mutex.try_lock s.consumer_waker (fun wk => ((), wk.register w)) with
  | (some _, m) => (true, ⟨s.queue, s.producer_waker, m⟩)
  | (none, m) => (false, ⟨s.queue, s.producer_waker, m⟩)

/-- Consumer::try_dequeue from src/spsc/consumer.rs: one try-pop, then one
best-effort producer wake; a contended wake turns the result into
WouldBlock carrying the possibly-dequeued item. -/
def try_dequeue {T : Type} {N : Nat} (s : SpscState T N) :
    Except (ConsumerError T) T × SpscState T N × List Nat :=
  let p := s.queue.dequeue
  let res : Except (ConsumerError T) T :=
    match p.1 with
    | some v => Except.ok v
    | none => Except.error ConsumerError.Empty
  let s1 : SpscState T N := ⟨p.2, s.producer_waker, s.consumer_waker⟩
  match try_wake_producer s1 with
  | (true, s2, woken) => (res, s2, woken)
  | (false, s2, woken) => (Except.error (ConsumerError.WouldBlock p.1), s2, woken)

end Consumer

/-- ConsumerFuture from src/spsc/consumer.rs: holds an already-dequeued
item still awaiting the producer-side notification. -/
structure ConsumerFuture (T : Type) where
  dequeued_value : Option T
deriving DecidableEq

/-- Consumer::dequeue from src/spsc/consumer.rs lines 77-82: the
constructor builds the future with no dequeued value and performs no
buffer operation. -/
def Consumer.dequeue {T : Type} {N : Nat} (s : SpscState T N) :
    ConsumerFuture T × SpscState T N :=
  (⟨none⟩, s)

/-- One resumption step outcome for an SPSC consumer future; fields as in
ProducerPollOut, with the producer waker cell as the peer. -/
structure ConsumerPollOut (T : Type) (N : Nat) where
  result : Poll T
  fut : ConsumerFuture T
  state : SpscState T N
  woken : List Nat
  self_woken : Bool
  registered : Bool
  fired_peer : Bool
deriving DecidableEq

/-- ConsumerFuture::poll from src/spsc/consumer.rs lines 147-182. On a
contended producer wake the dequeued value is put back into the future. -/
def ConsumerFuture.poll {T : Type} {N : Nat} (fut : ConsumerFuture T)
    (s : SpscState T N) (cx : Waker) : ConsumerPollOut T N :=
  match fut.dequeued_value with
  | some v =>
    match Consumer.try_wake_producer s with
    | (true, s2, woken) => ⟨Poll.Ready v, ⟨none⟩, s2, woken, false, false, true⟩
    | (false, s2, woken) => ⟨Poll.Pending, ⟨some v⟩, s2, woken, true, false, false⟩
  | none =>
    let p := s.queue.dequeue
    let s1 : SpscState T N := ⟨p.2, s.producer_waker, s.consumer_waker⟩
    match p.1 with
    | some v =>
      match Consumer.try_wake_producer s1 with
      | (true, s2, woken) => ⟨Poll.Ready v, ⟨none⟩, s2, woken, false, false, true⟩
      | (false, s2, woken) => ⟨Poll.Pending, ⟨some v⟩, s2, woken, true, false, false⟩
    | none =>
      match Consumer.try_register_waker s1 cx with
      | (true, s2) => ⟨Poll.Pending, ⟨none⟩, s2, [], false, true, false⟩
      | (false, s2) => ⟨Poll.Pending, ⟨none⟩, s2, [], true, false, false⟩

/-- Iterating wk.wake over every slot of a waker array, in order
(wks.iter_mut().for_each(|wk| wk.wake()) from src/mpmc/mod.rs). Returns
the tasks woken and the updated slots. -/
def wakeAll (wks : List WakerRegistration) : List Nat × List WakerRegistration :=
  match wks with
  | [] => ([], [])
  | wk :: rest =>
    let p := wk.wake
    let q := wakeAll rest
    (p.2 ++ q.1, p.1 :: q.2)

/-- The registration scan of src/mpmc/mod.rs:
wks.iter_mut().find(|wk| wk.is_empty()).map(|wk| wk.register(waker)).is_some().
Returns whether an empty slot was found (and registered into) and the
updated slots. -/
def registerFirstEmpty (wks : List WakerRegistration) (w : Waker) :
    Bool × List WakerRegistration :=
  match wks with
  | [] => (false, [])
  | wk :: rest =>
    if wk.is_empty then
      (true, wk.register w :: rest)
    else
      let q := registerFirstEmpty rest w
      (q.1, wk :: q.2)

/-- The shared state of one MPMC channel from src/mpmc/mod.rs: the ring
buffer plus the two Lock-guarded waker arrays of WakerStorage. The slot
lists have width W; theorems carry the length where it matters. -/
structure MpMcState (T : Type) (N : Nat) where
  queue : HQueue T N
  dequeue_wakers : Lock (List WakerRegistration)
  enqueue_wakers : Lock (List WakerRegistration)
deriving DecidableEq

namespace MpMcQueue

/-- MpMcQueue::try_wake_dequeuers from src/mpmc/mod.rs lines 96-101 (the
copy in src/mpmc/enqueue.rs is identical): lock the dequeuer waker array
and wake every slot in order. -/
def try_wake_dequeuers {T : Type} {N : Nat} (s : MpMcState T N) :
    Bool × MpMcState T N × List Nat :=
  match Lock.try_lock s.dequeue_wakers (fun wks => wakeAll wks) with
  | (some woken, l) => (true, ⟨s.queue, l, s.enqueue_wakers⟩, woken)
  | (none, l) => (false, ⟨s.queue, l, s.enqueue_wakers⟩, [])

/-- MpMcQueue::try_wake_enqueuers from src/mpmc/mod.rs lines 73-78 (the
copy in src/mpmc/dequeue.rs is identical). -/
def try_wake_enqueuers {T : Type} {N : Nat} (s : MpMcState T N) :
    Bool × MpMcState T N × List Nat :=
  match Lock.try_lock s.enqueue_wakers (fun wks => wakeAll wks) with
  | (some woken, l) => (true, ⟨s.queue, s.dequeue_wakers, l⟩, woken)
  | (none, l) => (false, ⟨s.queue, s.dequeue_wakers, l⟩, [])

/-- MpMcQueue::register_dequeuer_waker from src/mpmc/mod.rs lines 81-90:
lock the dequeuer array and occupy the first empty slot; the attempt
succeeds only when the lock was acquired and an empty slot was found
(res == Some(true)). -/
def register_dequeuer_waker {T : Type} {N : Nat} (s : MpMcState T N)
    (w : Waker) : Bool × MpMcState T N :=
  match Lock.try_lock s.dequeue_wakers (fun wks => registerFirstEmpty wks w) with
  | (some found, l) => (found, ⟨s.queue, l, s.enqueue_wakers⟩)
  | (none, l) => (false, ⟨s.queue, l, s.enqueue_wakers⟩)

/-- MpMcQueue::register_enqueuer_waker from src/mpmc/mod.rs lines 104-113. -/
def register_enqueuer_waker {T : Type} {N : Nat} (s : MpMcState T N)
    (w : Waker) : Bool × MpMcState T N :=
  match Lock.try_lock s.enqueue_wakers (fun wks => registerFirstEmpty wks w) with
  | (some found, l) => (found, ⟨s.queue, s.dequeue_wakers, l⟩)
  | (none, l) => (false, ⟨s.queue, s.dequeue_wakers, l⟩)

end MpMcQueue

/-- EnqueueFuture from src/mpmc/enqueue.rs. -/
structure EnqueueFuture (T : Type) where
  value_to_enqueue : Option T
deriving DecidableEq

/-- EnqueueFuture::new from src/mpmc/enqueue.rs: the MPMC enqueue
constructor stores the value without touching the buffer. -/
def EnqueueFuture.new {T : Type} (v : T) : EnqueueFuture T :=
  ⟨some v⟩

/-- One resumption step outcome for an MPMC enqueue future; fields as in
ProducerPollOut, with the dequeuer waker array as the peer. -/
structure EnqueuePollOut (T : Type) (N : Nat) where
  result : Poll Unit
  fut : EnqueueFuture T
  state : MpMcState T N
  woken : List Nat
  self_woken : Bool
  registered : Bool
  fired_peer : Bool
deriving DecidableEq

/-- EnqueueFuture::poll from src/mpmc/enqueue.rs lines 53-85. -/
def EnqueueFuture.poll {T : Type} {N : Nat} (fut : EnqueueFuture T)
    (s : MpMcState T N) (cx : Waker) : EnqueuePollOut T N :=
  match fut.value_to_enqueue with
  | none =>
    match MpMcQueue.try_wake_dequeuers s with
    | (true, s2, woken) => ⟨Poll.Ready (), ⟨none⟩, s2, woken, false, false, true⟩
    | (false, s2, woken) => ⟨Poll.Pending, ⟨none⟩, s2, woken, true, false, false⟩
  | some v =>
    let p := s.queue.enqueue v
    let s1 : MpMcState T N := ⟨p.2, s.dequeue_wakers, s.enqueue_wakers⟩
    match p.1 with
    | none =>
      match MpMcQueue.try_wake_dequeuers s1 with
      | (true, s2, woken) => ⟨Poll.Ready (), ⟨none⟩, s2, woken, false, false, true⟩
      | (false, s2, woken) => ⟨Poll.Pending, ⟨none⟩, s2, woken, true, false, false⟩
    | some v2 =>
      match MpMcQueue.register_enqueuer_waker s1 cx with
      | (true, s2) => ⟨Poll.Pending, ⟨some v2⟩, s2, [], false, true, false⟩
      | (false, s2) => ⟨Poll.Pending, ⟨some v2⟩, s2, [], true, false, false⟩

/-- DequeueFuture from src/mpmc/dequeue.rs. -/
structure DequeueFuture (T : Type) where
  dequeued_value : Option T
deriving DecidableEq

/-- DequeueFuture::new from src/mpmc/dequeue.rs: no buffer operation at
construction. -/
def DequeueFuture.new {T : Type} : DequeueFuture T :=
  ⟨none⟩

/-- One resumption step outcome for an MPMC dequeue future; fields as in
ConsumerPollOut, with the enqueuer waker array as the peer. -/
structure DequeuePollOut (T : Type) (N : Nat) where
  result : Poll T
  fut : DequeueFuture T
  state : MpMcState T N
  woken : List Nat
  self_woken : Bool
  registered : Bool
  fired_peer : Bool
deriving DecidableEq

/-- DequeueFuture::poll from src/mpmc/dequeue.rs lines 55-90. On a
contended enqueuer wake the dequeued value is put back into the future. -/
def DequeueFuture.poll {T : Type} {N : Nat} (fut : DequeueFuture T)
    (s : MpMcState T N) (cx : Waker) : DequeuePollOut T N :=
  match fut.dequeued_value with
  | some v =>
    match MpMcQueue.try_wake_enqueuers s with
    | (true, s2, woken) => ⟨Poll.Ready v, ⟨none⟩, s2, woken, false, false, true⟩
    | (false, s2, woken) => ⟨Poll.Pending, ⟨some v⟩, s2, woken, true, false, false⟩
  | none =>
    let p := s.queue.dequeue
    let s1 : MpMcState T N := ⟨p.2, s.dequeue_wakers, s.enqueue_wakers⟩
    match p.1 with
    | some v =>
      match MpMcQueue.try_wake_enqueuers s1 with
      | (true, s2, woken) => ⟨Poll.Ready v, ⟨none⟩, s2, woken, false, false, true⟩
      | (false, s2, woken) => ⟨Poll.Pending, ⟨some v⟩, s2, woken, true, false, false⟩
    | none =>
      match MpMcQueue.register_dequeuer_waker s1 cx with
      | (true, s2) => ⟨Poll.Pending, ⟨none⟩, s2, [], false, true, false⟩
      | (false, s2) => ⟨Poll.Pending, ⟨none⟩, s2, [], true, false, false⟩

/-
Interleaving model for concurrent Lock::try_lock calls (src/lock.rs).

The compare_exchange(UNLOCKED, LOCKED, SeqCst, Relaxed) in try_lock is a
single atomic step, so a system of threads racing on one cell is modelled
as a labelled transition system: each thread is idle (has not reached its
compare_exchange yet), running its closure inside the critical section, or
done (either having completed the closure and stored UNLOCKED back, or
having observed LOCKED and returned None without touching the value).
-/

/-- The phase of one thread calling Lock::try_lock. -/
inductive ThreadPhase where
  | idle
  | running
  | done_ok
  | done_contended
deriving DecidableEq

/-- A system of threads racing try_lock calls on one shared Lock cell. -/
structure RaceState (T : Type) where
  cell : Lock T
  threads : List ThreadPhase
deriving DecidableEq

/-- Number of threads currently executing their closure inside the
critical section. -/
def runningCount {T : Type} (s : RaceState T) : Nat :=
  s.threads.countP (fun t => t = ThreadPhase.running)

/-- One atomic step of the race: the compare_exchange of a thread entering
try_lock (succeeding exactly when the flag reads UNLOCKED), or the store
of UNLOCKED when a thread finishes its closure. `f` is the effect of a
thread's closure on the guarded value. -/
inductive RaceStep {T : Type} (f : T → T) : RaceState T → RaceState T → Prop where
  | acquire (s : RaceState T) (i : Nat) (hi : i < s.threads.length)
      (hidle : s.threads.get ⟨i, hi⟩ = ThreadPhase.idle)
      (hflag : s.cell.locked = false) :
      RaceStep f s ⟨⟨true, s.cell.value⟩, s.threads.set i ThreadPhase.running⟩
  | contend (s : RaceState T) (i : Nat) (hi : i < s.threads.length)
      (hidle : s.threads.get ⟨i, hi⟩ = ThreadPhase.idle)
      (hflag : s.cell.locked = true) :
      RaceStep f s ⟨s.cell, s.threads.set i ThreadPhase.done_contended⟩
  | release (s : RaceState T) (i : Nat) (hi : i < s.threads.length)
      (hrun : s.threads.get ⟨i, hi⟩ = ThreadPhase.running) :
      RaceStep f s ⟨⟨false, f s.cell.value⟩, s.threads.set i ThreadPhase.done_ok⟩

/-- Reachability under interleaved race steps. -/
def RaceReachable {T : Type} (f : T → T) : RaceState T → RaceState T → Prop :=
  Relation.ReflTransGen (RaceStep f)

/-- The initial race state: the cell unlocked, every one of `n` threads
yet to attempt its compare_exchange. -/
def raceInit {T : Type} (v : T) (n : Nat) : RaceState T :=
  ⟨Lock.new v, List.replicate n ThreadPhase.idle⟩

/-- The mutual-exclusion invariant: when the flag reads UNLOCKED nobody is
inside the critical section, and never more than one thread is inside. -/
def RaceInv {T : Type} (s : RaceState T) : Prop :=
  (s.cell.locked = false → runningCount s = 0) ∧ runningCount s ≤ 1

/-- C4: in the UNLOCKED state, try_with / try_lock runs the closure exactly
once with exclusive access to the wrapped value, restores the flag to
UNLOCKED afterwards, and returns Some of the result; in the LOCKED state it
returns None without running the closure and without touching the wrapped
value or the flag. Stated for both src/lock.rs Lock::try_lock and
src/mutex.rs Mutex::try_lock. -/
theorem try_lock_unlocked_runs_once_locked_untouched :
    ∀ {T R : Type} (l : Lock T) (m : Mutex T) (op : T → R × T),
      (l.locked = false →
        l.try_lock op = (some (op l.value).1, ⟨false, (op l.value).2⟩)) ∧
      (l.locked = true → l.try_lock op = (none, l)) ∧
      (m.locked = false →
        m.try_lock op = (some (op m.value).1, ⟨false, (op m.value).2⟩)) ∧
      (m.locked = true → m.try_lock op = (none, m)) := by
  intro T R l m op
  refine ⟨fun h => ?_, fun h => ?_, fun h => ?_, fun h => ?_⟩ <;>
    simp [Lock.try_lock, Mutex.try_lock, h]

/-- Witness for C4 at concrete inputs. -/
theorem try_lock_unlocked_runs_once_locked_untouched_witness :
    Lock.try_lock ⟨false, 3⟩ (fun n => (n + 1, n * 2)) = (some 4, ⟨false, 6⟩) ∧
    Lock.try_lock ⟨true, 3⟩ (fun n => (n + 1, n * 2)) = (none, ⟨true, 3⟩) ∧
    Mutex.try_lock ⟨false, 3⟩ (fun n => (n + 1, n * 2)) = (some 4, ⟨false, 6⟩) ∧
    Mutex.try_lock ⟨true, 3⟩ (fun n => (n + 1, n * 2)) = (none, ⟨true, 3⟩) := by
  have h1 := try_lock_unlocked_runs_once_locked_untouched
    (⟨false, 3⟩ : Lock Nat) (⟨false, 3⟩ : Mutex Nat) (fun n => (n + 1, n * 2))
  have h2 := try_lock_unlocked_runs_once_locked_untouched
    (⟨true, 3⟩ : Lock Nat) (⟨true, 3⟩ : Mutex Nat) (fun n => (n + 1, n * 2))
  exact ⟨h1.1 rfl, h2.2.1 rfl, h1.2.2.1 rfl, h2.2.2.2 rfl⟩

/-- C9: a waker slot holds at most one resume handle (structurally, its
content is a single Option). register(h) leaves the slot unchanged when
the stored handle would wake the same task as h, and otherwise overwrites
it so that only the most recent registrant occupies the slot; wake removes
the stored handle, leaving the slot empty, invokes it, and is a no-op on
an empty slot. -/
theorem waker_slot_register_replace_fire_spec :
    ∀ (r : WakerRegistration) (w w2 : Waker),
      (r.waker = some w2 → w2.will_wake w = true → r.register w = r) ∧
      (r.waker = some w2 → w2.will_wake w = false → (r.register w).waker = some w) ∧
      (r.waker = none → (r.register w).waker = some w) ∧
      ((r.wake).1.waker = none) ∧
      (r.waker = some w2 → r.wake = (⟨none⟩, [w2.task])) ∧
      (r.waker = none → r.wake = (r, [])) := by
  intro r w w2
  obtain ⟨rw⟩ := r
  refine ⟨fun h hw => ?_, fun h hw => ?_, fun h => ?_, ?_, fun h => ?_, fun h => ?_⟩ <;>
    cases rw <;> simp_all [WakerRegistration.register, WakerRegistration.wake]

/-- Witness for C9 at concrete inputs: a same-task handle is kept, a
different-task handle overwrites, wake empties and fires the slot. -/
theorem waker_slot_register_replace_fire_spec_witness :
    WakerRegistration.register ⟨some ⟨1, 0⟩⟩ ⟨1, 7⟩ = ⟨some ⟨1, 0⟩⟩ ∧
    (WakerRegistration.register ⟨some ⟨1, 0⟩⟩ ⟨2, 7⟩).waker = some ⟨2, 7⟩ ∧
    WakerRegistration.wake ⟨some ⟨1, 0⟩⟩ = (⟨none⟩, [1]) ∧
    WakerRegistration.wake ⟨none⟩ = (⟨none⟩, []) := by
  have h1 := waker_slot_register_replace_fire_spec ⟨some ⟨1, 0⟩⟩ ⟨1, 7⟩ ⟨1, 0⟩
  have h2 := waker_slot_register_replace_fire_spec ⟨some ⟨1, 0⟩⟩ ⟨2, 7⟩ ⟨1, 0⟩
  have h3 := waker_slot_register_replace_fire_spec ⟨none⟩ ⟨2, 7⟩ ⟨1, 0⟩
  exact ⟨h1.1 rfl (by decide), h2.2.1 rfl (by decide),
    h2.2.2.2.2.1 rfl, h3.2.2.2.2.2 rfl⟩

/-- C6: on an SPSC channel with free buffer capacity but a locked
consumer-side waker cell, try_enqueue(v) pushes v into the buffer and
nevertheless returns the WouldBlock error, whose variant carries no item;
an error result from try_enqueue therefore does not imply the buffer is
unchanged. -/
theorem try_enqueue_wouldblock_still_pushes :
    ∀ {T : Type} {N : Nat} (s : SpscState T N) (v : T),
      s.queue.buf.length < N → s.consumer_waker.locked = true →
        (Producer.try_enqueue s v).1 = some ProducerError.WouldBlock ∧
        (Producer.try_enqueue s v).2.1.queue.buf = s.queue.buf ++ [v] := by
  intro T N s v hroom hlocked
  simp [Producer.try_enqueue, Producer.try_wake_consumer, Mutex.try_lock,
    HQueue.enqueue, hroom, hlocked]

/-- Witness for C6: capacity 2, empty buffer, consumer waker cell locked. -/
theorem try_enqueue_wouldblock_still_pushes_witness :
    (Producer.try_enqueue
        (⟨⟨[]⟩, Mutex.new WakerRegistration.new, ⟨true, WakerRegistration.new⟩⟩ :
          SpscState Nat 2) 5).1 = some ProducerError.WouldBlock ∧
    (Producer.try_enqueue
        (⟨⟨[]⟩, Mutex.new WakerRegistration.new, ⟨true, WakerRegistration.new⟩⟩ :
          SpscState Nat 2) 5).2.1.queue.buf = [] ++ [5] := by
  exact try_enqueue_wouldblock_still_pushes
    (⟨⟨[]⟩, Mutex.new WakerRegistration.new, ⟨true, WakerRegistration.new⟩⟩ :
      SpscState Nat 2) 5 (by decide) (by decide)

/-- C3 counterexample: on a capacity-1 SPSC channel holding [5], the
dequeue constructor (src/spsc/consumer.rs lines 77-82) removes nothing
from the buffer and stores no dequeued item in the future, contradicting
the claim that constructing an asynchronous dequeue operation immediately
attempts one non-blocking pop so that, with a non-empty buffer, the item
is removed at construction time. -/
theorem dequeue_constructor_no_pop_cex :
    (Consumer.dequeue
        (⟨⟨[5]⟩, Mutex.new WakerRegistration.new, Mutex.new WakerRegistration.new⟩ :
          SpscState Nat 1)).2.queue.buf = [5] ∧
    (Consumer.dequeue
        (⟨⟨[5]⟩, Mutex.new WakerRegistration.new, Mutex.new WakerRegistration.new⟩ :
          SpscState Nat 1)).1.dequeued_value = none := by
  constructor <;> rfl

/-- C3 as amended: constructing an asynchronous enqueue operation
immediately attempts one non-blocking push before the operation is ever
polled (with free capacity the item is in the buffer at construction
time), but constructing an asynchronous dequeue operation performs no
buffer operation at all: the future starts with no dequeued value and the
channel state is untouched, the first pop happening at the first poll. -/
theorem enqueue_fastpath_dequeue_no_fastpath :
    ∀ {T : Type} {N : Nat} (s : SpscState T N) (v : T),
      (s.queue.buf.length < N →
        (Producer.enqueue s v).1.value_to_enqueue = none ∧
        (Producer.enqueue s v).2.queue.buf = s.queue.buf ++ [v]) ∧
      (¬ s.queue.buf.length < N →
        (Producer.enqueue s v).1.value_to_enqueue = some v ∧
        (Producer.enqueue s v).2.queue.buf = s.queue.buf) ∧
      Consumer.dequeue s = (⟨none⟩, s) := by
  intro T N s v
  refine ⟨fun h => ?_, fun h => ?_, rfl⟩ <;>
    simp [Producer.enqueue, HQueue.enqueue, h]

/-- Witness for the amended C3: capacity 2 with one element free. -/
theorem enqueue_fastpath_dequeue_no_fastpath_witness :
    (Producer.enqueue
        (⟨⟨[9]⟩, Mutex.new WakerRegistration.new, Mutex.new WakerRegistration.new⟩ :
          SpscState Nat 2) 5).1.value_to_enqueue = none ∧
    (Producer.enqueue
        (⟨⟨[9]⟩, Mutex.new WakerRegistration.new, Mutex.new WakerRegistration.new⟩ :
          SpscState Nat 2) 5).2.queue.buf = [9] ++ [5] := by
  exact (enqueue_fastpath_dequeue_no_fastpath
    (⟨⟨[9]⟩, Mutex.new WakerRegistration.new, Mutex.new WakerRegistration.new⟩ :
      SpscState Nat 2) 5).1 (by decide)

/-- C5 counterexample: on a full capacity-1 SPSC channel whose
consumer-side waker cell is locked, try_enqueue(5) reports WouldBlock, not
the buffer-full outcome Full(5), contradicting the claim that try_enqueue
on every full buffer reports the buffer-full outcome returning the item. -/
theorem try_enqueue_full_contended_not_full_cex :
    (Producer.try_enqueue
        (⟨⟨[7]⟩, Mutex.new WakerRegistration.new, ⟨true, WakerRegistration.new⟩⟩ :
          SpscState Nat 1) 5).1 = some ProducerError.WouldBlock ∧
    some (ProducerError.WouldBlock : ProducerError Nat) ≠
      some (ProducerError.Full 5) := by
  constructor
  · rfl
  · decide

/-- C5 as amended: on a full buffer try_enqueue reports the buffer-full
outcome returning the item when the consumer waker cell is uncontended,
and the distinct WouldBlock outcome when that cell is contended; on an
empty buffer try_dequeue reports the buffer-empty outcome when the
producer waker cell is uncontended, and the distinct WouldBlock outcome
when it is contended; in all four cases the buffer is left unchanged, and
the capacity and contention failure modes are distinct outcomes. -/
theorem try_apis_full_empty_report_and_preserve :
    ∀ {T : Type} {N : Nat} (s : SpscState T N) (v : T),
      (¬ s.queue.buf.length < N →
        (s.consumer_waker.locked = false →
          (Producer.try_enqueue s v).1 = some (ProducerError.Full v) ∧
          (Producer.try_enqueue s v).2.1.queue.buf = s.queue.buf) ∧
        (s.consumer_waker.locked = true →
          (Producer.try_enqueue s v).1 = some ProducerError.WouldBlock ∧
          (Producer.try_enqueue s v).2.1.queue.buf = s.queue.buf)) ∧
      (s.queue.buf = [] →
        (s.producer_waker.locked = false →
          (Consumer.try_dequeue s).1 = Except.error ConsumerError.Empty ∧
          (Consumer.try_dequeue s).2.1.queue.buf = s.queue.buf) ∧
        (s.producer_waker.locked = true →
          (Consumer.try_dequeue s).1 =
            Except.error (ConsumerError.WouldBlock none) ∧
          (Consumer.try_dequeue s).2.1.queue.buf = s.queue.buf)) ∧
      (ProducerError.WouldBlock : ProducerError T) ≠ ProducerError.Full v ∧
      ∀ (o : Option T), (ConsumerError.WouldBlock o : ConsumerError T) ≠
        ConsumerError.Empty := by
  intro T N s v
  refine ⟨fun hfull => ⟨fun hw => ?_, fun hw => ?_⟩,
    fun hempty => ⟨fun hw => ?_, fun hw => ?_⟩, by simp, by simp⟩
  · simp [Producer.try_enqueue, Producer.try_wake_consumer, Mutex.try_lock,
      HQueue.enqueue, hw, hfull]
  · simp [Producer.try_enqueue, Producer.try_wake_consumer, Mutex.try_lock,
      HQueue.enqueue, hw, hfull]
  · simp [Consumer.try_dequeue, Consumer.try_wake_producer, Mutex.try_lock,
      HQueue.dequeue, hw, hempty]
  · simp [Consumer.try_dequeue, Consumer.try_wake_producer, Mutex.try_lock,
      HQueue.dequeue, hw, hempty]

/-- Witness for the amended C5 on concrete full and empty channels. -/
theorem try_apis_full_empty_report_and_preserve_witness :
    (Producer.try_enqueue
        (⟨⟨[7]⟩, Mutex.new WakerRegistration.new, Mutex.new WakerRegistration.new⟩ :
          SpscState Nat 1) 5).1 = some (ProducerError.Full 5) ∧
    (Consumer.try_dequeue
        (⟨⟨[]⟩, Mutex.new WakerRegistration.new, Mutex.new WakerRegistration.new⟩ :
          SpscState Nat 1)).1 = Except.error ConsumerError.Empty := by
  refine ⟨((try_apis_full_empty_report_and_preserve
      (⟨⟨[7]⟩, Mutex.new WakerRegistration.new, Mutex.new WakerRegistration.new⟩ :
        SpscState Nat 1) 5).1 (by decide)).1 (by decide) |>.1,
    ((try_apis_full_empty_report_and_preserve
      (⟨⟨[]⟩, Mutex.new WakerRegistration.new, Mutex.new WakerRegistration.new⟩ :
        SpscState Nat 1) 0).2.1 (by decide)).1 (by decide) |>.1⟩

/-- C1: for every poll of an asynchronous enqueue or dequeue operation, on
every channel variant, a step that returns Pending either successfully
registered the operation's resume handle into the appropriate waker slot,
or invoked wake_by_ref on its own waker during that step; in particular
the transferred-but-contended case always self-wakes, so a failed
notification is never silently lost. -/
theorem poll_pending_registered_or_selfwake :
    ∀ {T : Type} {N : Nat} (s : SpscState T N) (m : MpMcState T N) (cx : Waker),
      (∀ (fut : ProducerFuture T), (fut.poll s cx).result = Poll.Pending →
        (fut.poll s cx).registered = true ∨ (fut.poll s cx).self_woken = true) ∧
      (∀ (fut : ConsumerFuture T), (fut.poll s cx).result = Poll.Pending →
        (fut.poll s cx).registered = true ∨ (fut.poll s cx).self_woken = true) ∧
      (∀ (fut : EnqueueFuture T), (fut.poll m cx).result = Poll.Pending →
        (fut.poll m cx).registered = true ∨ (fut.poll m cx).self_woken = true) ∧
      (∀ (fut : DequeueFuture T), (fut.poll m cx).result = Poll.Pending →
        (fut.poll m cx).registered = true ∨ (fut.poll m cx).self_woken = true) := by
  intro T N s m cx
  refine ⟨fun fut => ?_, fun fut => ?_, fun fut => ?_, fun fut => ?_⟩
  · rcases fut with ⟨fv⟩
    cases fv with
    | none =>
      rcases hw : Producer.try_wake_consumer s with ⟨b, s2, woken⟩
      cases b <;> simp [ProducerFuture.poll, hw]
    | some v =>
      rcases he : s.queue.enqueue v with ⟨e, q⟩
      cases e with
      | none =>
        rcases hw : Producer.try_wake_consumer ⟨q, s.producer_waker, s.consumer_waker⟩
          with ⟨b, s2, woken⟩
        cases b <;> simp [ProducerFuture.poll, he, hw]
      | some v2 =>
        rcases hr : Producer.try_register_waker ⟨q, s.producer_waker, s.consumer_waker⟩ cx
          with ⟨b, s2⟩
        cases b <;> simp [ProducerFuture.poll, he, hr]
  · rcases fut with ⟨fv⟩
    cases fv with
    | some v =>
      rcases hw : Consumer.try_wake_producer s with ⟨b, s2, woken⟩
      cases b <;> simp [ConsumerFuture.poll, hw]
    | none =>
      rcases he : s.queue.dequeue with ⟨e, q⟩
      cases e with
      | some v =>
        rcases hw : Consumer.try_wake_producer ⟨q, s.producer_waker, s.consumer_waker⟩
          with ⟨b, s2, woken⟩
        cases b <;> simp [ConsumerFuture.poll, he, hw]
      | none =>
        rcases hr : Consumer.try_register_waker ⟨q, s.producer_waker, s.consumer_waker⟩ cx
          with ⟨b, s2⟩
        cases b <;> simp [ConsumerFuture.poll, he, hr]
  · rcases fut with ⟨fv⟩
    cases fv with
    | none =>
      rcases hw : MpMcQueue.try_wake_dequeuers m with ⟨b, s2, woken⟩
      cases b <;> simp [EnqueueFuture.poll, hw]
    | some v =>
      rcases he : m.queue.enqueue v with ⟨e, q⟩
      cases e with
      | none =>
        rcases hw : MpMcQueue.try_wake_dequeuers ⟨q, m.dequeue_wakers, m.enqueue_wakers⟩
          with ⟨b, s2, woken⟩
        cases b <;> simp [EnqueueFuture.poll, he, hw]
      | some v2 =>
        rcases hr : MpMcQueue.register_enqueuer_waker ⟨q, m.dequeue_wakers, m.enqueue_wakers⟩ cx
          with ⟨b, s2⟩
        cases b <;> simp [EnqueueFuture.poll, he, hr]
  · rcases fut with ⟨fv⟩
    cases fv with
    | some v =>
      rcases hw : MpMcQueue.try_wake_enqueuers m with ⟨b, s2, woken⟩
      cases b <;> simp [DequeueFuture.poll, hw]
    | none =>
      rcases he : m.queue.dequeue with ⟨e, q⟩
      cases e with
      | some v =>
        rcases hw : MpMcQueue.try_wake_enqueuers ⟨q, m.dequeue_wakers, m.enqueue_wakers⟩
          with ⟨b, s2, woken⟩
        cases b <;> simp [DequeueFuture.poll, he, hw]
      | none =>
        rcases hr : MpMcQueue.register_dequeuer_waker ⟨q, m.dequeue_wakers, m.enqueue_wakers⟩ cx
          with ⟨b, s2⟩
        cases b <;> simp [DequeueFuture.poll, he, hr]

/-- Witness for C1: a Pending poll on an empty capacity-1 SPSC channel
with both waker cells free registers the consumer waker. -/
theorem poll_pending_registered_or_selfwake_witness :
    (ConsumerFuture.poll ⟨none⟩
        (⟨⟨[]⟩, Mutex.new WakerRegistration.new, Mutex.new WakerRegistration.new⟩ :
          SpscState Nat 1) ⟨0, 0⟩).registered = true ∨
    (ConsumerFuture.poll ⟨none⟩
        (⟨⟨[]⟩, Mutex.new WakerRegistration.new, Mutex.new WakerRegistration.new⟩ :
          SpscState Nat 1) ⟨0, 0⟩).self_woken = true := by
  exact (poll_pending_registered_or_selfwake
    (⟨⟨[]⟩, Mutex.new WakerRegistration.new, Mutex.new WakerRegistration.new⟩ :
      SpscState Nat 1)
    (⟨⟨[]⟩, Lock.new [], Lock.new []⟩ : MpMcState Nat 1) ⟨0, 0⟩).2.1 ⟨none⟩ (by decide)

/-- C2: an SPSC enqueue poll returns Ready exactly when the item is in the
ring buffer and, in that same poll, the consumer-side waker cell was
successfully locked and fired; an SPSC dequeue poll returns Ready with the
item exactly when an item has been removed from the buffer and the
producer-side waker cell was successfully locked and fired; in every other
case the poll returns Pending and the operation's progress (item
transferred / item removed) is retained in the future for the next poll. -/
theorem spsc_poll_ready_iff_transferred_and_fired :
    ∀ {T : Type} {N : Nat} (s : SpscState T N) (cx : Waker)
      (pfut : ProducerFuture T) (cfut : ConsumerFuture T),
      ((pfut.poll s cx).result = Poll.Ready () ↔
        ((pfut.poll s cx).fut.value_to_enqueue = none ∧
         (pfut.poll s cx).fired_peer = true)) ∧
      (pfut.value_to_enqueue = none →
        (pfut.poll s cx).fut.value_to_enqueue = none ∧
        (pfut.poll s cx).state.queue = s.queue) ∧
      (∀ v, pfut.value_to_enqueue = some v →
        ((pfut.poll s cx).fut.value_to_enqueue = none ∧
          (pfut.poll s cx).state.queue.buf = s.queue.buf ++ [v]) ∨
        ((pfut.poll s cx).result = Poll.Pending ∧
          (pfut.poll s cx).fut.value_to_enqueue = some v ∧
          (pfut.poll s cx).state.queue = s.queue)) ∧
      ((∃ v, (cfut.poll s cx).result = Poll.Ready v) ↔
        (cfut.poll s cx).fired_peer = true) ∧
      (∀ v, cfut.dequeued_value = some v →
        (cfut.poll s cx).state.queue = s.queue ∧
        (((cfut.poll s cx).result = Poll.Ready v ∧
           (cfut.poll s cx).fut.dequeued_value = none) ∨
         ((cfut.poll s cx).result = Poll.Pending ∧
           (cfut.poll s cx).fut.dequeued_value = some v))) ∧
      (cfut.dequeued_value = none →
        (s.queue.buf = [] →
          (cfut.poll s cx).result = Poll.Pending ∧
          (cfut.poll s cx).fut.dequeued_value = none ∧
          (cfut.poll s cx).state.queue = s.queue) ∧
        (∀ v rest, s.queue.buf = v :: rest →
          (cfut.poll s cx).state.queue.buf = rest ∧
          (((cfut.poll s cx).result = Poll.Ready v ∧
             (cfut.poll s cx).fut.dequeued_value = none) ∨
           ((cfut.poll s cx).result = Poll.Pending ∧
             (cfut.poll s cx).fut.dequeued_value = some v)))) := by
  intro T N s cx pfut cfut
  rcases pfut with ⟨pfv⟩
  rcases cfut with ⟨cfv⟩
  rcases s with ⟨⟨buf⟩, ⟨plocked, pw⟩, ⟨clocked, cw⟩⟩
  refine ⟨?_, ?_, ?_, ?_, ?_, ?_⟩
  · cases pfv with
    | none => cases clocked <;>
        simp [ProducerFuture.poll, Producer.try_wake_consumer, Mutex.try_lock]
    | some v =>
      by_cases hroom : buf.length < N <;> cases clocked <;> cases plocked <;>
        simp [ProducerFuture.poll, Producer.try_wake_consumer,
          Producer.try_register_waker, Mutex.try_lock, HQueue.enqueue, hroom]
  · intro h
    subst h
    cases clocked <;>
      simp [ProducerFuture.poll, Producer.try_wake_consumer, Mutex.try_lock]
  · intro v h
    subst h
    by_cases hroom : buf.length < N <;> cases clocked <;> cases plocked <;>
      simp [ProducerFuture.poll, Producer.try_wake_consumer,
        Producer.try_register_waker, Mutex.try_lock, HQueue.enqueue, hroom]
  · cases cfv with
    | some v => cases plocked <;>
        simp [ConsumerFuture.poll, Consumer.try_wake_producer, Mutex.try_lock]
    | none =>
      cases buf with
      | nil => cases plocked <;> cases clocked <;>
          simp [ConsumerFuture.poll, Consumer.try_wake_producer,
            Consumer.try_register_waker, Mutex.try_lock, HQueue.dequeue]
      | cons x rest => cases plocked <;>
          simp [ConsumerFuture.poll, Consumer.try_wake_producer, Mutex.try_lock,
            HQueue.dequeue]
  · intro v h
    subst h
    cases plocked <;>
      simp [ConsumerFuture.poll, Consumer.try_wake_producer, Mutex.try_lock]
  · intro h
    subst h
    constructor
    · intro hb
      subst hb
      cases clocked <;>
        simp [ConsumerFuture.poll, Consumer.try_register_waker, Mutex.try_lock,
          HQueue.dequeue]
    · intro v rest hb
      subst hb
      cases plocked <;>
        simp [ConsumerFuture.poll, Consumer.try_wake_producer, Mutex.try_lock,
          HQueue.dequeue]

/-- Witness for C2: on a capacity-1 channel holding [5] with free waker
cells, a first dequeue poll removes the item, fires the producer cell and
the progress characterization holds at that input. -/
theorem spsc_poll_ready_iff_transferred_and_fired_witness :
    (ConsumerFuture.poll (⟨none⟩ : ConsumerFuture Nat)
        (⟨⟨[5]⟩, Mutex.new WakerRegistration.new, Mutex.new WakerRegistration.new⟩ :
          SpscState Nat 1) ⟨0, 0⟩).state.queue.buf = [] ∧
    (((ConsumerFuture.poll (⟨none⟩ : ConsumerFuture Nat)
        (⟨⟨[5]⟩, Mutex.new WakerRegistration.new, Mutex.new WakerRegistration.new⟩ :
          SpscState Nat 1) ⟨0, 0⟩).result = Poll.Ready 5 ∧
      (ConsumerFuture.poll (⟨none⟩ : ConsumerFuture Nat)
        (⟨⟨[5]⟩, Mutex.new WakerRegistration.new, Mutex.new WakerRegistration.new⟩ :
          SpscState Nat 1) ⟨0, 0⟩).fut.dequeued_value = none) ∨
     ((ConsumerFuture.poll (⟨none⟩ : ConsumerFuture Nat)
        (⟨⟨[5]⟩, Mutex.new WakerRegistration.new, Mutex.new WakerRegistration.new⟩ :
          SpscState Nat 1) ⟨0, 0⟩).result = Poll.Pending ∧
      (ConsumerFuture.poll (⟨none⟩ : ConsumerFuture Nat)
        (⟨⟨[5]⟩, Mutex.new WakerRegistration.new, Mutex.new WakerRegistration.new⟩ :
          SpscState Nat 1) ⟨0, 0⟩).fut.dequeued_value = some 5)) := by
  exact ((spsc_poll_ready_iff_transferred_and_fired
    (⟨⟨[5]⟩, Mutex.new WakerRegistration.new, Mutex.new WakerRegistration.new⟩ :
      SpscState Nat 1) ⟨0, 0⟩ ⟨none⟩ ⟨none⟩).2.2.2.2.2 rfl).2 5 [] rfl

/-- Waking every slot of a waker array empties every slot and fires, in
array order, exactly the handles that were stored. -/
theorem wakeAll_eq (wks : List WakerRegistration) :
    wakeAll wks = ((wks.filterMap (fun r => r.waker)).map Waker.task,
      List.replicate wks.length ⟨none⟩) := by
  induction wks with
  | nil => rfl
  | cons wk rest ih =>
    rcases wk with ⟨w⟩
    cases w <;> simp [wakeAll, WakerRegistration.wake, ih, List.replicate_succ]

/-- C7: a wake of one direction of an MPMC channel that locks that
direction's waker-array cell invokes wake on every one of the W slots,
removing and firing every currently stored handle, and leaves every slot
empty; if the cell is contended, no slot is touched and the attempt
reports failure. Stated for both directions. -/
theorem mpmc_wake_broadcasts_all_slots :
    ∀ {T : Type} {N W : Nat} (s : MpMcState T N),
      s.dequeue_wakers.value.length = W →
      s.enqueue_wakers.value.length = W →
      (s.dequeue_wakers.locked = false →
        MpMcQueue.try_wake_dequeuers s =
          (true, ⟨s.queue, ⟨false, List.replicate W ⟨none⟩⟩, s.enqueue_wakers⟩,
            (s.dequeue_wakers.value.filterMap (fun r => r.waker)).map Waker.task)) ∧
      (s.dequeue_wakers.locked = true →
        MpMcQueue.try_wake_dequeuers s = (false, s, [])) ∧
      (s.enqueue_wakers.locked = false →
        MpMcQueue.try_wake_enqueuers s =
          (true, ⟨s.queue, s.dequeue_wakers, ⟨false, List.replicate W ⟨none⟩⟩⟩,
            (s.enqueue_wakers.value.filterMap (fun r => r.waker)).map Waker.task)) ∧
      (s.enqueue_wakers.locked = true →
        MpMcQueue.try_wake_enqueuers s = (false, s, [])) := by
  intro T N W s hdl hel
  rcases s with ⟨q, ⟨dl, dv⟩, ⟨el, ev⟩⟩
  simp only at hdl hel
  refine ⟨fun h => ?_, fun h => ?_, fun h => ?_, fun h => ?_⟩ <;> subst h <;>
    simp [MpMcQueue.try_wake_dequeuers, MpMcQueue.try_wake_enqueuers,
      Lock.try_lock, wakeAll_eq, ← hdl, ← hel]
  omega

/-- Witness for C7: width-2 arrays with one occupied slot each; the
unlocked dequeuer wake empties both slots and fires task 3, the locked
enqueuer wake touches nothing. -/
theorem mpmc_wake_broadcasts_all_slots_witness :
    MpMcQueue.try_wake_dequeuers
        (⟨⟨[]⟩, ⟨false, [⟨some ⟨3, 0⟩⟩, ⟨none⟩]⟩, ⟨true, [⟨some ⟨4, 0⟩⟩, ⟨none⟩]⟩⟩ :
          MpMcState Nat 1) =
      (true, ⟨⟨[]⟩, ⟨false, List.replicate 2 ⟨none⟩⟩, ⟨true, [⟨some ⟨4, 0⟩⟩, ⟨none⟩]⟩⟩,
        ([(⟨some ⟨3, 0⟩⟩ : WakerRegistration), ⟨none⟩].filterMap
          (fun r => r.waker)).map Waker.task) ∧
    MpMcQueue.try_wake_enqueuers
        (⟨⟨[]⟩, ⟨false, [⟨some ⟨3, 0⟩⟩, ⟨none⟩]⟩, ⟨true, [⟨some ⟨4, 0⟩⟩, ⟨none⟩]⟩⟩ :
          MpMcState Nat 1) =
      (false,
        (⟨⟨[]⟩, ⟨false, [⟨some ⟨3, 0⟩⟩, ⟨none⟩]⟩, ⟨true, [⟨some ⟨4, 0⟩⟩, ⟨none⟩]⟩⟩ :
          MpMcState Nat 1), []) := by
  have h := @mpmc_wake_broadcasts_all_slots Nat 1 2
    (⟨⟨[]⟩, ⟨false, [⟨some ⟨3, 0⟩⟩, ⟨none⟩]⟩, ⟨true, [⟨some ⟨4, 0⟩⟩, ⟨none⟩]⟩⟩ :
      MpMcState Nat 1) rfl rfl
  exact ⟨h.1 rfl, h.2.2.2 rfl⟩

/-- When every slot is occupied the registration scan changes nothing and
reports failure. -/
theorem registerFirstEmpty_all_occupied (wks : List WakerRegistration) (w : Waker)
    (h : ∀ r ∈ wks, r.is_empty = false) :
    registerFirstEmpty wks w = (false, wks) := by
  induction wks with
  | nil => rfl
  | cons wk rest ih =>
    have h0 : wk.is_empty = false := h wk (List.mem_cons_self wk rest)
    have hrest : ∀ r ∈ rest, r.is_empty = false :=
      fun r hr => h r (List.mem_cons_of_mem wk hr)
    simp [registerFirstEmpty, h0, ih hrest]

/-- When slot i is the first empty slot, the registration scan stores the
handle exactly there and reports success. -/
theorem registerFirstEmpty_first_empty (wks : List WakerRegistration) (w : Waker)
    (i : Nat) (hi : i < wks.length)
    (he : (wks.get ⟨i, hi⟩).is_empty = true)
    (hbefore : ∀ j, (hj : j < i) → (wks.get ⟨j, Nat.lt_trans hj hi⟩).is_empty = false) :
    registerFirstEmpty wks w = (true, wks.set i ⟨some w⟩) := by
  induction wks generalizing i with
  | nil => simp at hi
  | cons wk rest ih =>
    cases i with
    | zero =>
      simp only [List.get] at he
      have hwk : wk.waker = none := by
        rcases wk with ⟨wkw⟩
        cases wkw <;> simp_all [WakerRegistration.is_empty]
      simp [registerFirstEmpty, WakerRegistration.is_empty, hwk,
        WakerRegistration.register]
    | succ i =>
      have h0 : wk.is_empty = false := hbefore 0 (Nat.succ_pos i)
      have he2 : (rest.get ⟨i, Nat.lt_of_succ_lt_succ hi⟩).is_empty = true := he
      have hbefore2 : ∀ j, (hj : j < i) →
          (rest.get ⟨j, Nat.lt_trans hj (Nat.lt_of_succ_lt_succ hi)⟩).is_empty = false :=
        fun j hj => hbefore (j + 1) (Nat.succ_lt_succ hj)
      simp [registerFirstEmpty, h0,
        ih i (Nat.lt_of_succ_lt_succ hi) he2 hbefore2]

/-- C8: a waker registration attempt on an MPMC channel stores the handle
into the first empty slot in array order and succeeds when the direction's
cell locks and an empty slot exists; when every slot is occupied, or the
cell itself is contended, the attempt fails and leaves the array
unchanged; the polling operation then self-wakes and returns Pending
rather than surfacing an error. Stated for both directions and both
futures. -/
theorem mpmc_register_first_empty_or_selfwake :
    ∀ {T : Type} {N : Nat} (s : MpMcState T N) (w : Waker) (v : T),
      (s.dequeue_wakers.locked = false →
        ∀ (i : Nat) (hi : i < s.dequeue_wakers.value.length),
          (s.dequeue_wakers.value.get ⟨i, hi⟩).is_empty = true →
          (∀ j, (hj : j < i) →
            (s.dequeue_wakers.value.get ⟨j, Nat.lt_trans hj hi⟩).is_empty = false) →
          MpMcQueue.register_dequeuer_waker s w =
            (true, ⟨s.queue, ⟨false, s.dequeue_wakers.value.set i ⟨some w⟩⟩,
              s.enqueue_wakers⟩)) ∧
      (s.dequeue_wakers.locked = false →
        (∀ r ∈ s.dequeue_wakers.value, r.is_empty = false) →
        MpMcQueue.register_dequeuer_waker s w = (false, s)) ∧
      (s.dequeue_wakers.locked = true →
        MpMcQueue.register_dequeuer_waker s w = (false, s)) ∧
      (s.enqueue_wakers.locked = false →
        ∀ (i : Nat) (hi : i < s.enqueue_wakers.value.length),
          (s.enqueue_wakers.value.get ⟨i, hi⟩).is_empty = true →
          (∀ j, (hj : j < i) →
            (s.enqueue_wakers.value.get ⟨j, Nat.lt_trans hj hi⟩).is_empty = false) →
          MpMcQueue.register_enqueuer_waker s w =
            (true, ⟨s.queue, s.dequeue_wakers,
              ⟨false, s.enqueue_wakers.value.set i ⟨some w⟩⟩⟩)) ∧
      (s.enqueue_wakers.locked = false →
        (∀ r ∈ s.enqueue_wakers.value, r.is_empty = false) →
        MpMcQueue.register_enqueuer_waker s w = (false, s)) ∧
      (s.enqueue_wakers.locked = true →
        MpMcQueue.register_enqueuer_waker s w = (false, s)) ∧
      (s.queue.buf = [] → (MpMcQueue.register_dequeuer_waker s w).1 = false →
        (DequeueFuture.poll ⟨none⟩ s w).result = Poll.Pending ∧
        (DequeueFuture.poll ⟨none⟩ s w).self_woken = true) ∧
      (¬ s.queue.buf.length < N →
        (MpMcQueue.register_enqueuer_waker s w).1 = false →
        (EnqueueFuture.poll ⟨some v⟩ s w).result = Poll.Pending ∧
        (EnqueueFuture.poll ⟨some v⟩ s w).self_woken = true) := by
  intro T N s w v
  rcases s with ⟨⟨buf⟩, ⟨dl, dv⟩, ⟨el, ev⟩⟩
  refine ⟨fun h i hi he hb => ?_, fun h hocc => ?_, fun h => ?_,
    fun h i hi he hb => ?_, fun h hocc => ?_, fun h => ?_,
    fun hb hreg => ?_, fun hroom hreg => ?_⟩ <;> subst_eqs
  · simp [MpMcQueue.register_dequeuer_waker, Lock.try_lock,
      registerFirstEmpty_first_empty dv w i hi he hb]
  · simp [MpMcQueue.register_dequeuer_waker, Lock.try_lock,
      registerFirstEmpty_all_occupied dv w hocc]
  · simp [MpMcQueue.register_dequeuer_waker, Lock.try_lock]
  · simp [MpMcQueue.register_enqueuer_waker, Lock.try_lock,
      registerFirstEmpty_first_empty ev w i hi he hb]
  · simp [MpMcQueue.register_enqueuer_waker, Lock.try_lock,
      registerFirstEmpty_all_occupied ev w hocc]
  · simp [MpMcQueue.register_enqueuer_waker, Lock.try_lock]
  · rcases hr : MpMcQueue.register_dequeuer_waker
        ⟨⟨([] : List T)⟩, ⟨dl, dv⟩, ⟨el, ev⟩⟩ w with ⟨b, s2⟩
    rw [hr] at hreg
    simp only at hreg
    subst hreg
    simp [DequeueFuture.poll, HQueue.dequeue, hr]
  · rcases hr : MpMcQueue.register_enqueuer_waker
        ⟨⟨buf⟩, ⟨dl, dv⟩, ⟨el, ev⟩⟩ w with ⟨b, s2⟩
    rw [hr] at hreg
    simp only at hreg
    subst hreg
    simp [EnqueueFuture.poll, HQueue.enqueue, hroom, hr]

/-- Witness for C8: width-2 dequeuer array with slot 0 occupied; the
registration occupies slot 1, and on a locked cell the poll of an empty
channel self-wakes and stays Pending. -/
theorem mpmc_register_first_empty_or_selfwake_witness :
    MpMcQueue.register_dequeuer_waker
        (⟨⟨[]⟩, ⟨false, [⟨some ⟨3, 0⟩⟩, ⟨none⟩]⟩, ⟨false, [⟨none⟩, ⟨none⟩]⟩⟩ :
          MpMcState Nat 1) ⟨5, 0⟩ =
      (true, ⟨⟨[]⟩, ⟨false, [(⟨some ⟨3, 0⟩⟩ : WakerRegistration), ⟨none⟩].set 1 ⟨some ⟨5, 0⟩⟩⟩,
        ⟨false, [⟨none⟩, ⟨none⟩]⟩⟩) ∧
    ((DequeueFuture.poll (⟨none⟩ : DequeueFuture Nat)
        (⟨⟨[]⟩, ⟨true, [⟨some ⟨3, 0⟩⟩, ⟨none⟩]⟩, ⟨false, [⟨none⟩, ⟨none⟩]⟩⟩ :
          MpMcState Nat 1) ⟨5, 0⟩).result = Poll.Pending ∧
      (DequeueFuture.poll (⟨none⟩ : DequeueFuture Nat)
        (⟨⟨[]⟩, ⟨true, [⟨some ⟨3, 0⟩⟩, ⟨none⟩]⟩, ⟨false, [⟨none⟩, ⟨none⟩]⟩⟩ :
          MpMcState Nat 1) ⟨5, 0⟩).self_woken = true) := by
  have h1 := mpmc_register_first_empty_or_selfwake
    (⟨⟨[]⟩, ⟨false, [⟨some ⟨3, 0⟩⟩, ⟨none⟩]⟩, ⟨false, [⟨none⟩, ⟨none⟩]⟩⟩ :
      MpMcState Nat 1) ⟨5, 0⟩ 0
  have h2 := mpmc_register_first_empty_or_selfwake
    (⟨⟨[]⟩, ⟨true, [⟨some ⟨3, 0⟩⟩, ⟨none⟩]⟩, ⟨false, [⟨none⟩, ⟨none⟩]⟩⟩ :
      MpMcState Nat 1) ⟨5, 0⟩ 0
  refine ⟨h1.1 rfl 1 (by decide) (by decide) ?_, h2.2.2.2.2.2.2.1 rfl ?_⟩
  · intro j hj
    interval_cases j
    rfl
  · have h3 := h2.2.2.1 rfl
    rw [h3]

/-- Setting an idle entry to running increases the running tally by one. -/
theorem countP_running_set_idle_to_running (l : List ThreadPhase) (i : Nat)
    (hi : i < l.length) (h : l.get ⟨i, hi⟩ = ThreadPhase.idle) :
    (l.set i ThreadPhase.running).countP (fun t => decide (t = ThreadPhase.running)) =
      l.countP (fun t => decide (t = ThreadPhase.running)) + 1 := by
  induction l generalizing i with
  | nil => simp at hi
  | cons x xs ih =>
    cases i with
    | zero =>
      simp only [List.get] at h
      subst h
      simp [List.countP_cons]
    | succ i =>
      have := ih i (Nat.lt_of_succ_lt_succ hi) h
      simp only [List.set, List.countP_cons]
      omega

/-- Setting an idle entry to the contended outcome leaves the running
tally unchanged. -/
theorem countP_running_set_idle_to_contended (l : List ThreadPhase) (i : Nat)
    (hi : i < l.length) (h : l.get ⟨i, hi⟩ = ThreadPhase.idle) :
    (l.set i ThreadPhase.done_contended).countP
        (fun t => decide (t = ThreadPhase.running)) =
      l.countP (fun t => decide (t = ThreadPhase.running)) := by
  induction l generalizing i with
  | nil => simp at hi
  | cons x xs ih =>
    cases i with
    | zero =>
      simp only [List.get] at h
      subst h
      simp [List.countP_cons]
    | succ i =>
      have := ih i (Nat.lt_of_succ_lt_succ hi) h
      simp only [List.set, List.countP_cons]
      omega

/-- Setting a running entry to the completed outcome decreases the running
tally by one. -/
theorem countP_running_set_running_to_done (l : List ThreadPhase) (i : Nat)
    (hi : i < l.length) (h : l.get ⟨i, hi⟩ = ThreadPhase.running) :
    l.countP (fun t => decide (t = ThreadPhase.running)) =
      (l.set i ThreadPhase.done_ok).countP
        (fun t => decide (t = ThreadPhase.running)) + 1 := by
  induction l generalizing i with
  | nil => simp at hi
  | cons x xs ih =>
    cases i with
    | zero =>
      simp only [List.get] at h
      subst h
      simp [List.countP_cons]
    | succ i =>
      have := ih i (Nat.lt_of_succ_lt_succ hi) h
      simp only [List.set, List.countP_cons]
      omega

/-- One race step preserves the mutual-exclusion invariant. -/
theorem raceStep_preserves_inv {T : Type} {f : T → T} {a b : RaceState T}
    (h : RaceStep f a b) (ha : RaceInv a) : RaceInv b := by
  rcases ha with ⟨ha1, ha2⟩
  simp only [RaceInv, runningCount] at ha1 ha2 ⊢
  cases h with
  | acquire i hi hidle hflag =>
    have h0 := ha1 hflag
    have hc := countP_running_set_idle_to_running a.threads i hi hidle
    simp only []
    constructor
    · intro habs
      exact absurd habs (by simp)
    · omega
  | contend i hi hidle hflag =>
    have hc := countP_running_set_idle_to_contended a.threads i hi hidle
    simp only []
    constructor
    · intro hb
      have h0 := ha1 hb
      omega
    · omega
  | release i hi hrun =>
    have hc := countP_running_set_running_to_done a.threads i hi hrun
    simp only []
    constructor
    · intro hb
      omega
    · omega

/-- C10: among any number of try_with / try_lock calls racing on the same
exclusive-access cell, modelled as an interleaving of the atomic
compare_exchange and unlock-store steps of src/lock.rs, every state
reachable from the initial one has at most one caller executing its
closure inside the critical section, and when the flag reads UNLOCKED
nobody is inside; a caller whose compare_exchange observes LOCKED moves
directly to the contended (None) outcome without entering. -/
theorem lock_race_mutual_exclusion :
    ∀ {T : Type} (f : T → T) (v : T) (n : Nat) (s : RaceState T),
      RaceReachable f (raceInit v n) s →
        runningCount s ≤ 1 ∧ (s.cell.locked = false → runningCount s = 0) := by
  intro T f v n s h
  have hinit : RaceInv (raceInit v n) := by
    constructor
    · intro _
      simp only [runningCount, raceInit]
      rw [List.countP_eq_zero]
      intro t ht
      rw [List.eq_of_mem_replicate ht]
      simp
    · simp only [runningCount, raceInit]
      rw [List.countP_eq_zero.mpr]
      · omega
      · intro t ht
        rw [List.eq_of_mem_replicate ht]
        simp
  have hs : RaceInv s := by
    induction h with
    | refl => exact hinit
    | tail _ hbc ih => exact raceStep_preserves_inv hbc ih
  exact ⟨hs.2, hs.1⟩

/-- Witness for C10: two threads, one having acquired the cell; the
reachable state after one acquire step has one running thread. -/
theorem lock_race_mutual_exclusion_witness :
    runningCount
        (⟨⟨true, (0 : Nat)⟩, [ThreadPhase.running, ThreadPhase.idle]⟩ :
          RaceState Nat) ≤ 1 ∧
    ((⟨⟨true, (0 : Nat)⟩, [ThreadPhase.running, ThreadPhase.idle]⟩ :
          RaceState Nat).cell.locked = false →
      runningCount
        (⟨⟨true, (0 : Nat)⟩, [ThreadPhase.running, ThreadPhase.idle]⟩ :
          RaceState Nat) = 0) := by
  exact lock_race_mutual_exclusion (fun t => t) 0 2 _
    (Relation.ReflTransGen.single
      (RaceStep.acquire (raceInit 0 2) 0 (by decide) rfl rfl))

end HeaplessAsync
